import Mathlib

/-
Verification development for the your-spotify-consolidator scripts.

The TypeScript sources are shallowly embedded: JS numbers that hold counts and
millisecond durations become Int, JS strings become String, a JS Map in
insertion order becomes an association list (List (String × β)) where setting
an existing key updates the entry in place and setting a fresh key appends,
and the stable Array.prototype.sort becomes a stable insertion sort.
ISO-8601 timestamps compared through Date.getTime() are modelled as integer
epoch milliseconds.  Console logging, file I/O and the derived display
metadata blocks (counts of duplicates removed, percentage strings, ISO
timestamps of the run) are not modelled; only the data transformations are.
-/

/-- JS String.prototype.toLowerCase, modelled characterwise by Char.toLower
(the scripts only rely on ASCII case folding). -/
def strLower (s : String) : String :=
  String.mk (s.data.map Char.toLower)

/-- JS String.prototype.trim: strip leading and trailing whitespace. -/
def strTrim (s : String) : String :=
  String.mk (((s.data.dropWhile Char.isWhitespace).reverse.dropWhile Char.isWhitespace).reverse)

/-- JS `x || d` where x is a possibly-undefined string: undefined (none) and
the empty string are the falsy cases that fall through to the default. -/
def jsOr (x : Option String) (d : String) : String :=
  match x with
  | none => d
  | some v => if v = "" then d else v

/-- Worker for jsSetDedup: keep the elements not seen yet, accumulating the
seen ones, so the first occurrence of each element survives in order. -/
def dedupGo {α : Type} [DecidableEq α] (seen : List α) : List α → List α
  | [] => []
  | a :: l => if a ∈ seen then dedupGo seen l else a :: dedupGo (seen ++ [a]) l

/-- JS `[...new Set(l)]`: first-occurrence deduplication preserving insertion
order. -/
def jsSetDedup {α : Type} [DecidableEq α] (l : List α) : List α :=
  dedupGo [] l

/-- The genre merge of clean-top-albums.ts line 84 / clean-top-artists.ts
line 91: `[...new Set([...existing, ...incoming])]`. -/
def mergedGenres (existing incoming : List String) : List String :=
  jsSetDedup (existing ++ incoming)

/-- JS Map.has on an insertion-ordered association list. -/
def hasKey {β : Type} (m : List (String × β)) (k : String) : Bool :=
  m.any (fun p => p.1 == k)

/-- JS Map.set on an existing key: the entry keeps its position. -/
def updateAssoc {β : Type} (m : List (String × β)) (k : String) (f : β → β) :
    List (String × β) :=
  match m with
  | [] => []
  | p :: rest => if p.1 == k then (p.1, f p.2) :: rest else p :: updateAssoc rest k f

/-- JS Map.get (keys are unique in a Map, so the first hit is the entry). -/
def lookupAssoc {β : Type} (m : List (String × β)) (k : String) : Option β :=
  match m with
  | [] => none
  | p :: rest => if p.1 == k then some p.2 else lookupAssoc rest k

/-- One step of keeping only the first pair inserted for each key. -/
def firstOccStep {β : Type} (m : List (String × β)) (p : String × β) :
    List (String × β) :=
  if hasKey m p.1 then m else m ++ [p]

/-- Keep, for each key, the first pair carrying it, in first-occurrence order. -/
def firstOcc {β : Type} (l : List (String × β)) : List (String × β) :=
  l.foldl firstOccStep []

/-- Insertion step of the stable descending sort: the inserted element came
earlier in the input, so it passes over strictly greater measures and stops
before the first element whose measure is not greater than its own. -/
def insertDesc {α : Type} (f : α → Int) (a : α) : List α → List α
  | [] => [a]
  | b :: l => if f a < f b then b :: insertDesc f a l else a :: b :: l

/-- JS stable Array.prototype.sort with comparator (a, b) => f(b) - f(a):
sort descending by the measure f, ties keeping input order. -/
def sortByDesc {α : Type} (f : α → Int) : List α → List α
  | [] => []
  | a :: l => insertDesc f a (sortByDesc f l)

/-- JS stable Array.prototype.sort with comparator (a, b) => f(a) - f(b):
sort ascending by the measure f. -/
def sortByAsc {α : Type} (f : α → Int) (l : List α) : List α :=
  sortByDesc (fun a => -(f a)) l

namespace CleanTopAlbums

structure Image where
  height : Int
  url : String
  width : Int

structure AlbumInfo where
  name : String
  images : List Image

structure ArtistInfo where
  name : String
  genres : List String

/-- The CleanedAlbum input shape of clean-top-albums.ts (also the album shape
consumed by ai-consolidate-albums.ts). -/
structure CleanedAlbum where
  duration_ms : Int
  count : Int
  albumId : String
  album : AlbumInfo
  artist : ArtistInfo

/-- ConsolidatedAlbum of clean-top-albums.ts: the consolidation bookkeeping
added on top of a CleanedAlbum; rank is added only after sorting. -/
structure ConsolidatedAlbum extends CleanedAlbum where
  consolidated_count : Int
  original_albumIds : List String
  rank : Option Nat

/-- clean-top-albums.ts line 65: the grouping key
`${album.artist.name}|||${album.album.name}`.toLowerCase(). -/
def albumKey (album : CleanedAlbum) : String :=
  strLower (album.artist.name ++ "|||" ++ album.album.name)

/-- clean-top-albums.ts lines 69-86: fold a duplicate album into the existing
consolidated entry (sum count and duration, bump consolidated_count, append
the album id, keep the larger image set, merge genres). -/
def mergeInto (existing : ConsolidatedAlbum) (album : CleanedAlbum) : ConsolidatedAlbum :=
  { existing with
    count := existing.count + album.count
    duration_ms := existing.duration_ms + album.duration_ms
    consolidated_count := existing.consolidated_count + 1
    original_albumIds := existing.original_albumIds ++ [album.albumId]
    album := if existing.album.images.length < album.album.images.length then
        { existing.album with images := album.album.images }
      else existing.album
    artist := { existing.artist with
      genres := mergedGenres existing.artist.genres album.artist.genres } }

/-- clean-top-albums.ts lines 90-94: first occurrence of a key seeds the map. -/
def seedAlbum (album : CleanedAlbum) : ConsolidatedAlbum :=
  { toCleanedAlbum := album
    consolidated_count := 1
    original_albumIds := [album.albumId]
    rank := none }

/-- One iteration of the consolidation loop (clean-top-albums.ts lines 64-96). -/
def step (m : List (String × ConsolidatedAlbum)) (album : CleanedAlbum) :
    List (String × ConsolidatedAlbum) :=
  if hasKey m (albumKey album) then
    updateAssoc m (albumKey album) (fun existing => mergeInto existing album)
  else m ++ [(albumKey album, seedAlbum album)]

/-- The consolidation fold of consolidateAlbums (clean-top-albums.ts lines
61-96): the insertion-ordered map of consolidated albums, before sorting,
truncation and rank assignment. -/
def consolidate (albums : List CleanedAlbum) : List (String × ConsolidatedAlbum) :=
  albums.foldl step []

/-- clean-top-albums.ts line 103: rank = index + 1 over the truncated list. -/
def assignRanks : List ConsolidatedAlbum → Nat → List ConsolidatedAlbum
  | [], _ => []
  | a :: l, i => { a with rank := some i } :: assignRanks l (i + 1)

/-- consolidateAlbums (clean-top-albums.ts lines 58-129): consolidation fold,
stable sort by count descending, truncation to the top 500, 1-based ranks. -/
def consolidateAlbums (albums : List CleanedAlbum) : List ConsolidatedAlbum :=
  assignRanks ((sortByDesc (fun e => e.count)
    ((consolidate albums).map (fun p => p.2))).take 500) 1

end CleanTopAlbums

namespace GenCleaned

structure SongInfo where
  name : String
  preview_url : Option String
  external_urls : List (String × String)

structure AlbumRef where
  name : String
  images : List CleanTopAlbums.Image

structure ArtistInfo where
  name : String
  genres : List String

/-- The CleanedSong shape of generate-cleaned-files-from-history.ts
(consolidation bookkeeping is part of the input shape: consolidateSongs maps
CleanedSong to CleanedSong). -/
structure CleanedSong where
  duration_ms : Int
  count : Int
  songId : String
  song : SongInfo
  album : AlbumRef
  artist : ArtistInfo
  consolidated_count : Int
  original_songIds : List String

/-- generate-cleaned-files-from-history.ts line 191: the song grouping key
`${song.song.name.toLowerCase().trim()}|${song.artist.name.toLowerCase().trim()}`. -/
def songKey (song : CleanedSong) : String :=
  strTrim (strLower song.song.name) ++ "|" ++ strTrim (strLower song.artist.name)

/-- generate-cleaned-files-from-history.ts lines 194-199: fold a duplicate
song into the existing entry.  Note consolidated_count accumulates the play
count (`+= song.count`), not the number of folded members. -/
def mergeSong (existing song : CleanedSong) : CleanedSong :=
  { existing with
    count := existing.count + song.count
    consolidated_count := existing.consolidated_count + song.count
    duration_ms := existing.duration_ms + song.duration_ms
    original_songIds := existing.original_songIds ++ [song.songId] }

/-- One iteration of the song consolidation loop (lines 190-208); a fresh key
seeds the map with the song, with consolidated_count reset to its count. -/
def stepSong (m : List (String × CleanedSong)) (song : CleanedSong) :
    List (String × CleanedSong) :=
  if hasKey m (songKey song) then
    updateAssoc m (songKey song) (fun existing => mergeSong existing song)
  else m ++ [(songKey song, { song with consolidated_count := song.count })]

/-- The consolidation map of consolidateSongs
(generate-cleaned-files-from-history.ts lines 184-215), before sorting. -/
def consolidateSongsMap (songs : List CleanedSong) : List (String × CleanedSong) :=
  songs.foldl stepSong []

/-- consolidateSongs (lines 184-215): consolidation fold then stable sort by
count descending (no truncation and no rank in this script). -/
def consolidateSongs (songs : List CleanedSong) : List CleanedSong :=
  sortByDesc (fun e => e.count) ((consolidateSongsMap songs).map (fun p => p.2))

structure AlbumMeta where
  name : String
  album_type : String
  artists : List String
  release_date : String
  release_date_precision : String
  popularity : Int
  images : List CleanTopAlbums.Image
  external_urls : List (String × String)
  genres : List String

/-- The CleanedAlbum shape of generate-cleaned-files-from-history.ts. -/
structure CleanedAlbum where
  duration_ms : Int
  count : Int
  differents : Int
  primaryAlbumId : String
  total_count : Int
  total_duration_ms : Int
  album : AlbumMeta
  consolidated_count : Int
  original_albumIds : List String

/-- generate-cleaned-files-from-history.ts line 227:
`const firstArtist = album.album.artists[0] || 'Unknown Artist';`. -/
def albumFirstArtist (album : CleanedAlbum) : String :=
  jsOr album.album.artists.head? ("Unknown Artist")

/-- generate-cleaned-files-from-history.ts line 228: the album grouping key
`${album.album.name.toLowerCase().trim()}|${firstArtist.toLowerCase().trim()}`. -/
def albumKey (album : CleanedAlbum) : String :=
  strTrim (strLower album.album.name) ++ "|" ++ strTrim (strLower (albumFirstArtist album))

end GenCleaned

namespace AiConsolidate

open CleanTopAlbums (CleanedAlbum)

/-- ConsolidationRule of ai-consolidate-albums.ts (also the rule shape of the
interactive clean-top-albums variant). -/
structure ConsolidationRule where
  artistName : String
  baseAlbumName : String
  variations : List String

/-- ConsolidationDecision of ai-consolidate-albums.ts; the 0-1 confidence
float is modelled as a rational. -/
structure ConsolidationDecision where
  shouldConsolidate : Bool
  confidence : Rat
  canonicalName : String
  reasoning : String

/-- JSON values, as produced by JSON.parse on the oracle response. -/
inductive Json where
  | null : Json
  | bool (b : Bool) : Json
  | num (q : Rat) : Json
  | str (s : String) : Json
  | arr (elems : List Json) : Json
  | obj (fields : List (String × Json)) : Json

/-- JS property access on a parsed JSON value (undefined when absent or when
the value is not an object). -/
def getField (j : Json) (name : String) : Option Json :=
  match j with
  | .obj fields => (fields.find? (fun p => p.1 == name)).map (fun p => p.2)
  | _ => none

/-- The response validation of analyzeAlbumGroup (ai-consolidate-albums.ts
lines 162-170): the parsed decision must have a boolean shouldConsolidate, a
numeric confidence, and string canonicalName and reasoning; anything else is
rejected (and the caller falls back). -/
def decodeDecision (j : Json) : Option ConsolidationDecision :=
  match getField j ("shouldConsolidate"), getField j ("confidence"),
      getField j ("canonicalName"), getField j ("reasoning") with
  | some (.bool b), some (.num q), some (.str c), some (.str r) => some ⟨b, q, c, r⟩
  | _, _, _, _ => none

/-- The fallback decision of analyzeAlbumGroup (lines 176-182). -/
def fallbackDecision (first : CleanedAlbum) (msg : String) : ConsolidationDecision :=
  { shouldConsolidate := false
    confidence := 0
    canonicalName := first.album.name
    reasoning := msg }

/-- analyzeAlbumGroup (ai-consolidate-albums.ts lines 140-184).  The oracle
interaction is modelled by its outcome: `Except.error` covers a failed
queryLLM call, a response containing no JSON object, and a JSON.parse failure
(each throws inside the try and is caught); `Except.ok j` is the parsed first
JSON payload of the response text.  The result is `none` only for an empty
cluster, where the JS code would throw on albums[0] while building the prompt
(clusters handed to it always have at least two members). -/
def analyzeAlbumGroup (albums : List CleanedAlbum) (response : Except String Json) :
    Option ConsolidationDecision :=
  match albums.head? with
  | none => none
  | some first =>
    some (match response with
      | .error msg => fallbackDecision first ("Error in AI analysis: " ++ msg)
      | .ok j =>
        match decodeDecision j with
        | none => fallbackDecision first ("Error in AI analysis: Invalid response format from LLM")
        | some d => d)

/-- The per-group rule creation inside consolidateAlbums
(ai-consolidate-albums.ts lines 317-328): a new rule is produced exactly when
the decision says consolidate and its confidence reaches the threshold. -/
def processGroup (group : List CleanedAlbum) (decision : ConsolidationDecision)
    (confidenceThreshold : Rat) : Option ConsolidationRule :=
  if decision.shouldConsolidate = true ∧ confidenceThreshold ≤ decision.confidence then
    (group.head?).map (fun first =>
      { artistName := first.artist.name
        baseAlbumName := decision.canonicalName
        variations := group.map (fun album => strLower album.album.name) })
  else none

/-- The default of the confidenceThreshold parameter of consolidateAlbums
(ai-consolidate-albums.ts line 277; the CLI default is the same 0.7). -/
def defaultConfidenceThreshold : Rat := 7 / 10

/-- The per-group body of findAutoConsolidations (ai-consolidate-albums.ts
lines 258-269): sort the identically-keyed group by count descending (stable)
and use the most played member's display name as the rule's base name; the
artist name comes from the first album of the surrounding artist partition. -/
def autoRuleFor (artistName : String) (groupAlbums : List CleanedAlbum) :
    Option ConsolidationRule :=
  ((sortByDesc (fun a => a.count) groupAlbums).head?).map (fun top =>
    { artistName := artistName
      baseAlbumName := top.album.name
      variations := groupAlbums.map (fun album => strLower album.album.name) })

end AiConsolidate

namespace DataMerger

/-- A listening event; the ISO played-at timestamp is modelled as integer
epoch milliseconds (Date.getTime() of the string). -/
structure ListeningEvent where
  playedAt : Int
  msPlayed : Int

structure AlbumRef where
  id : String
  name : String
  images : List CleanTopAlbums.Image

/-- CompleteSong of the complete-listening-history merger (src/unnamed/part_000,
first DataMerger). -/
structure CompleteSong where
  songId : String
  name : String
  duration_ms : Int
  artists : List String
  album : AlbumRef
  artist : CleanTopAlbums.ArtistInfo
  external_urls : List (String × String)
  preview_url : Option String
  playCount : Int
  totalListeningTime : Int
  listeningEvents : List ListeningEvent

/-- RecentPlayData of part_000. -/
structure RecentPlayData where
  id : String
  name : String
  duration_ms : Int
  artists : List String
  album : AlbumRef
  external_urls : List (String × String)
  preview_url : Option String
  played_at : Int

/-- part_000 line 381: key of an existing song,
`${song.name.toLowerCase().trim()}|${song.artists[0]?.toLowerCase().trim() || 'unknown'}`. -/
def songKey (song : CompleteSong) : String :=
  strTrim (strLower song.name) ++ "|"
    ++ jsOr ((song.artists.head?).map (fun a => strTrim (strLower a))) ("unknown")

/-- part_000 line 391: key of an incoming play, built the same way. -/
def playKey (play : RecentPlayData) : String :=
  strTrim (strLower play.name) ++ "|"
    ++ jsOr ((play.artists.head?).map (fun a => strTrim (strLower a))) ("unknown")

/-- part_000 lines 395-401: fold one play into a matched existing song. -/
def updateSong (play : RecentPlayData) (song : CompleteSong) : CompleteSong :=
  { song with
    playCount := song.playCount + 1
    totalListeningTime := song.totalListeningTime + play.duration_ms
    listeningEvents := song.listeningEvents ++ [⟨play.played_at, play.duration_ms⟩] }

/-- part_000 lines 407-425: a new song seeded from an unmatched play. -/
def newSongOf (play : RecentPlayData) : CompleteSong :=
  { songId := play.id
    name := play.name
    duration_ms := play.duration_ms
    artists := play.artists
    album := play.album
    artist := { name := jsOr play.artists.head? ("Unknown Artist"), genres := [] }
    external_urls := play.external_urls
    preview_url := play.preview_url
    playCount := 1
    totalListeningTime := play.duration_ms
    listeningEvents := [⟨play.played_at, play.duration_ms⟩] }

/-- JS Map.get against the lookup map built at lines 379-383: the map is
populated in list order, so for duplicate keys the last insertion wins and the
update lands on the last song carrying the key.  Updates never change a song's
name or artists, hence never its key, so searching the updated list is the
same as consulting the map built from the original list. -/
def updateLast (songs : List CompleteSong) (k : String)
    (f : CompleteSong → CompleteSong) : List CompleteSong :=
  match songs with
  | [] => []
  | s :: rest =>
    if rest.any (fun t => songKey t == k) then s :: updateLast rest k f
    else if songKey s == k then f s :: rest
    else s :: rest

/-- One iteration of the merge loop (part_000 lines 390-431): a matched play
updates the matched song in place, an unmatched play appends a new song to the
pending list. -/
def stepMerge (st : List CompleteSong × List CompleteSong) (play : RecentPlayData) :
    List CompleteSong × List CompleteSong :=
  if st.1.any (fun s => songKey s == playKey play) then
    (updateLast st.1 (playKey play) (updateSong play), st.2)
  else (st.1, st.2 ++ [newSongOf play])

/-- part_000 lines 390-434: process every play, then append the new songs. -/
def mergeSongs (existingSongs : List CompleteSong)
    (recentPlays : List RecentPlayData) : List CompleteSong :=
  let st := recentPlays.foldl stepMerge (existingSongs, [])
  st.1 ++ st.2

/-- All event timestamps of all songs (part_000 lines 443-445). -/
def allDates (songs : List CompleteSong) : List Int :=
  songs.flatMap (fun song => song.listeningEvents.map (fun e => e.playedAt))

/-- The date-range recomputation of mergeData (part_000 lines 443-451): sort
every entity's event timestamps ascending and take the two ends (the range is
left unchanged, here none, when there are no events at all). -/
def dateRange (songs : List CompleteSong) : Option (Int × Int) :=
  let sorted := sortByAsc (fun d => d) (allDates songs)
  match sorted.head?, sorted.getLast? with
  | some earliest, some latest => some (earliest, latest)
  | _, _ => none

/-- mergeData (part_000 lines 375-460), restricted to the song collection and
the recomputed date range (the remaining metadata is display bookkeeping). -/
def mergeData (existingSongs : List CompleteSong)
    (recentPlays : List RecentPlayData) :
    List CompleteSong × Option (Int × Int) :=
  let songs := mergeSongs existingSongs recentPlays
  (songs, dateRange songs)

end DataMerger

namespace Part001

open CleanTopAlbums (CleanedAlbum Image AlbumInfo ArtistInfo)

/-- ConsolidatedAlbum of src/unnamed/part_001: like the clean-top-albums one
but also tracking the individual play count of every folded member. -/
structure ConsolidatedAlbum extends CleanedAlbum where
  consolidated_count : Int
  original_albumIds : List String
  original_counts : List Int
  rank : Option Nat

/-- The hardcoded albumVariations table of part_001 (lines 63-119), in source
order: artist key, then for each base album name its lower-cased variants. -/
def albumVariations : List (String × List (String × List String)) := [
  ("eddie vedder", [("Into The Wild (Music For The Motion Picture)",
    ["into the wild (music for the motion picture)",
     "music for the motion picture into the wild"])]),
  ("the smashing pumpkins", [("Mellon Collie and the Infinite Sadness",
    ["mellon collie and the infinite sadness (remastered)",
     "mellon collie and the infinite sadness (deluxe edition)"])]),
  ("joy division", [("Unknown Pleasures",
    ["unknown pleasures (collector\x27s edition)", "unknown pleasures"])]),
  ("joyce manor", [("Joyce Manor", ["joyce manor", "s/t"])]),
  ("david bowie", [("Let\x27s Dance",
    ["let\x27s dance (2018 remaster)", "let\x27s dance (1999 remaster)"])]),
  ("the tallest man on earth", [("There\x27s No Leaving Now",
    ["there\x27s no leaving now", "there´s no leaving now"])]),
  ("oasis", [("(What\x27s The Story) Morning Glory?",
    ["(what\x27s the story) morning glory? [remastered deluxe edition]",
     "(what\x27s the story) morning glory? (deluxe remastered edition)"]),
   ("Definitely Maybe",
    ["definitely maybe (deluxe edition remastered)", "definitely maybe"])]),
  ("tigers jaw", [("Belongs To The Dead",
    ["belongs to the dead (remastered version)", "belongs to the dead"])]),
  ("kvelertak", [("Kvelertak", ["kvelertak (deluxe edition)", "kvelertak"])]),
  ("citizen", [("Life In Your Glass World",
    ["life in your glass world (deluxe edition)", "life in your glass world"])]),
  ("fleetwood mac", [("Rumours", ["rumours", "rumours (super deluxe)"])]),
  ("the velvet underground", [("The Velvet Underground & Nico 45th Anniversary",
    ["the velvet underground & nico 45th anniversary",
     "the velvet underground & nico 45th anniversary (super deluxe edition)"])]),
  ("the rolling stones", [("Exile On Main Street",
    ["exile on main street (deluxe version)",
     "exile on main street (2010 re-mastered)"])]),
  ("metallica", [("Kill \x27Em All", ["kill \x27em all (remastered)", "kill \x27em all"])]),
  ("ben howard", [("Every Kingdom", ["every kingdom (deluxe version)", "every kingdom"])]),
  ("jokke med tourettes", [("Billig Lykke", ["billig lykke", "billig lykke (re-mastret)"])]),
  ("upstrokes", [("Gonna Get \x27Em", ["gonna get \x27em", "gonna get\x27em"])]),
  ("kanye west", [("The College Dropout",
    ["the college dropout", "the college dropout (explicit)"])])]

/-- normalizeAlbumName (part_001 lines 122-134): map a known lower-cased
variant back to its base album name, otherwise return the name unchanged. -/
def normalizeAlbumName (artistName albumName : String) : String :=
  let artistKey := strLower artistName
  let albumKeyLc := strLower albumName
  match albumVariations.find? (fun p => p.1 == artistKey) with
  | none => albumName
  | some entry =>
    match entry.2.find? (fun e => e.2.any (fun v => v == albumKeyLc)) with
    | none => albumName
    | some base => base.1

/-- part_001 lines 140-141: the grouping key uses the normalized album name. -/
def albumKey (album : CleanedAlbum) : String :=
  strLower (album.artist.name ++ "|||" ++ normalizeAlbumName album.artist.name album.album.name)

/-- part_001 lines 143-164: fold a duplicate album into the existing entry,
also recording its individual play count. -/
def mergeInto (existing : ConsolidatedAlbum) (album : CleanedAlbum) : ConsolidatedAlbum :=
  { existing with
    count := existing.count + album.count
    duration_ms := existing.duration_ms + album.duration_ms
    consolidated_count := existing.consolidated_count + 1
    original_albumIds := existing.original_albumIds ++ [album.albumId]
    original_counts := existing.original_counts ++ [album.count]
    album := if existing.album.images.length < album.album.images.length then
        { existing.album with images := album.album.images }
      else existing.album
    artist := { existing.artist with
      genres := mergedGenres existing.artist.genres album.artist.genres } }

/-- part_001 lines 165-178: first occurrence of a key seeds the map, storing
the normalized name as the consolidated album's name. -/
def seedAlbum (album : CleanedAlbum) : ConsolidatedAlbum :=
  { toCleanedAlbum := { album with
      album := { album.album with
        name := normalizeAlbumName album.artist.name album.album.name } }
    consolidated_count := 1
    original_albumIds := [album.albumId]
    original_counts := [album.count]
    rank := none }

/-- One iteration of the consolidation loop (part_001 lines 139-179). -/
def step (m : List (String × ConsolidatedAlbum)) (album : CleanedAlbum) :
    List (String × ConsolidatedAlbum) :=
  if hasKey m (albumKey album) then
    updateAssoc m (albumKey album) (fun existing => mergeInto existing album)
  else m ++ [(albumKey album, seedAlbum album)]

/-- The consolidation fold of part_001's consolidateAlbums (lines 136-179),
before sorting, truncation and rank assignment. -/
def consolidate (albums : List CleanedAlbum) : List (String × ConsolidatedAlbum) :=
  albums.foldl step []

end Part001

/-- Concrete input: a first-seen variant with the lower play count. -/
def exAlbumRoadFirst : CleanTopAlbums.CleanedAlbum :=
  { duration_ms := 100, count := 5, albumId := "id1",
    album := { name := "Abbey Road", images := [] },
    artist := { name := "X", genres := ["rock"] } }

/-- Concrete input: a later variant of the same album with the higher count. -/
def exAlbumRoadMost : CleanTopAlbums.CleanedAlbum :=
  { duration_ms := 200, count := 10, albumId := "id2",
    album := { name := "abbey road", images := [] },
    artist := { name := "X", genres := ["pop", "rock"] } }

/-- Concrete input: a record carrying a negative play count. -/
def exNegAlbum : CleanTopAlbums.CleanedAlbum :=
  { duration_ms := 100, count := -5, albumId := "idneg",
    album := { name := "Bad Data", images := [] },
    artist := { name := "Y", genres := [] } }

/-- Concrete input: a song observation, 3 plays. -/
def exSongA : GenCleaned.CleanedSong :=
  { duration_ms := 30, count := 3, songId := "s1",
    song := { name := "Help", preview_url := none, external_urls := [] },
    album := { name := "Help", images := [] },
    artist := { name := "X", genres := [] },
    consolidated_count := 3, original_songIds := ["s1"] }

/-- Concrete input: a duplicate of the same song, 4 plays. -/
def exSongB : GenCleaned.CleanedSong :=
  { duration_ms := 40, count := 4, songId := "s2",
    song := { name := "help", preview_url := none, external_urls := [] },
    album := { name := "Help", images := [] },
    artist := { name := "x", genres := [] },
    consolidated_count := 4, original_songIds := ["s2"] }

/-- Concrete input: album metadata with an empty artists list. -/
def exAlbumMetaNoArtist : GenCleaned.AlbumMeta :=
  { name := "Album", album_type := "album", artists := [],
    release_date := "", release_date_precision := "day", popularity := 0,
    images := [], external_urls := [], genres := [] }

/-- Concrete input: an album from the complete history with no artists. -/
def exAlbumNoArtist : GenCleaned.CleanedAlbum :=
  { duration_ms := 10, count := 1, differents := 1, primaryAlbumId := "a1",
    total_count := 1, total_duration_ms := 10, album := exAlbumMetaNoArtist,
    consolidated_count := 1, original_albumIds := ["a1"] }

/-- Concrete input: an incoming play whose track has no artists. -/
def exPlayNoArtist : DataMerger.RecentPlayData :=
  { id := "p1", name := "Song", duration_ms := 100, artists := [],
    album := { id := "al", name := "A", images := [] }, external_urls := [],
    preview_url := none, played_at := 0 }

/-- Concrete input: an existing complete-history song with one event. -/
def exHistSong : DataMerger.CompleteSong :=
  { songId := "h1", name := "Song", duration_ms := 180, artists := ["X"],
    album := { id := "al", name := "A", images := [] },
    artist := { name := "X", genres := [] },
    external_urls := [], preview_url := none,
    playCount := 1, totalListeningTime := 30,
    listeningEvents := [{ playedAt := 100, msPlayed := 30 }] }

/-- Concrete input: an incoming play matching exHistSong's grouping key. -/
def exPlayMatch : DataMerger.RecentPlayData :=
  { id := "p2", name := "song", duration_ms := 45, artists := ["x"],
    album := { id := "al", name := "A", images := [] }, external_urls := [],
    preview_url := none, played_at := 200 }

theorem hasKey_iff {β : Type} (m : List (String × β)) (k : String) :
    hasKey m k = true ↔ k ∈ m.map Prod.fst := by
  simp only [hasKey, List.any_eq_true, List.mem_map, beq_iff_eq]

theorem keys_updateAssoc {β : Type} (m : List (String × β)) (k : String) (f : β → β) :
    (updateAssoc m k f).map Prod.fst = m.map Prod.fst := by
  induction m with
  | nil => rfl
  | cons p rest ih =>
    simp only [updateAssoc]
    split <;> simp [ih]

theorem hasKey_updateAssoc {β : Type} (m : List (String × β)) (k : String)
    (f : β → β) (k2 : String) : hasKey (updateAssoc m k f) k2 = hasKey m k2 := by
  induction m with
  | nil => rfl
  | cons p rest ih =>
    simp only [updateAssoc]
    split
    · simp [hasKey, List.any_cons]
    · simp only [hasKey, List.any_cons] at ih ⊢
      rw [ih]

theorem hasKey_append {β : Type} (m l : List (String × β)) (k : String) :
    hasKey (m ++ l) k = (hasKey m k || hasKey l k) := by
  simp [hasKey, List.any_append]

theorem sum_map_updateAssoc {β : Type} (g : β → Int) (m : List (String × β)) (k : String)
    (f : β → β) (d : Int) (hf : ∀ e, g (f e) = g e + d) (hk : hasKey m k = true) :
    ((updateAssoc m k f).map (fun p => g p.2)).sum = (m.map (fun p => g p.2)).sum + d := by
  induction m with
  | nil => simp [hasKey] at hk
  | cons p rest ih =>
    simp only [updateAssoc]
    by_cases h : (p.1 == k) = true
    · simp only [if_pos h, List.map_cons, List.sum_cons, hf]
      ring
    · have hk2 : hasKey rest k = true := by
        simp only [hasKey, List.any_cons, Bool.or_eq_true] at hk
        rcases hk with hk | hk
        · exact absurd hk h
        · exact hk
      simp only [if_neg h, List.map_cons, List.sum_cons, ih hk2]
      ring

theorem forall_updateAssoc {β : Type} (P : β → Prop) (m : List (String × β)) (k : String)
    (f : β → β) (hf : ∀ e, P e → P (f e)) (hm : ∀ p ∈ m, P p.2) :
    ∀ p ∈ updateAssoc m k f, P p.2 := by
  induction m with
  | nil => simp [updateAssoc]
  | cons q rest ih =>
    intro p hp
    simp only [updateAssoc] at hp
    by_cases h : (q.1 == k) = true
    · rw [if_pos h] at hp
      rcases List.mem_cons.mp hp with h2 | h2
      · rw [h2]
        exact hf q.2 (hm q (List.mem_cons_self q rest))
      · exact hm p (List.mem_cons_of_mem q h2)
    · rw [if_neg h] at hp
      rcases List.mem_cons.mp hp with h2 | h2
      · rw [h2]
        exact hm q (List.mem_cons_self q rest)
      · exact ih (fun r hr => hm r (List.mem_cons_of_mem q hr)) p h2

theorem lookup_of_hasKey {β : Type} (m : List (String × β)) (k : String)
    (hk : hasKey m k = true) : ∃ v, lookupAssoc m k = some v := by
  induction m with
  | nil => simp [hasKey] at hk
  | cons p rest ih =>
    simp only [lookupAssoc]
    by_cases h : (p.1 == k) = true
    · exact ⟨p.2, by rw [if_pos h]⟩
    · have hk2 : hasKey rest k = true := by
        simp only [hasKey, List.any_cons, Bool.or_eq_true] at hk
        rcases hk with hk | hk
        · exact absurd hk h
        · exact hk
      rcases ih hk2 with ⟨v, hv⟩
      exact ⟨v, by rw [if_neg h]; exact hv⟩

theorem mem_insertDesc {α : Type} (f : α → Int) (a : α) (l : List α) (x : α) :
    x ∈ insertDesc f a l ↔ x = a ∨ x ∈ l := by
  induction l with
  | nil => simp [insertDesc]
  | cons b t ih =>
    simp only [insertDesc]
    split
    · simp only [List.mem_cons, ih]
      tauto
    · simp only [List.mem_cons]

theorem perm_insertDesc {α : Type} (f : α → Int) (a : α) (l : List α) :
    (insertDesc f a l).Perm (a :: l) := by
  induction l with
  | nil => simp [insertDesc]
  | cons b t ih =>
    simp only [insertDesc]
    split
    · exact (ih.cons b).trans (List.Perm.swap a b t)
    · exact List.Perm.refl _

theorem perm_sortByDesc {α : Type} (f : α → Int) (l : List α) : (sortByDesc f l).Perm l := by
  induction l with
  | nil => exact List.Perm.refl _
  | cons a t ih => exact (perm_insertDesc f a (sortByDesc f t)).trans (ih.cons a)

theorem pairwise_insertDesc {α : Type} (f : α → Int) (a : α) (l : List α)
    (h : l.Pairwise (fun x y => f y ≤ f x)) :
    (insertDesc f a l).Pairwise (fun x y => f y ≤ f x) := by
  induction l with
  | nil => simp [insertDesc]
  | cons b t ih =>
    rcases List.pairwise_cons.mp h with ⟨hb, ht⟩
    simp only [insertDesc]
    by_cases hab : f a < f b
    · rw [if_pos hab]
      refine List.pairwise_cons.mpr ⟨?_, ih ht⟩
      intro y hy
      rcases (mem_insertDesc f a t y).mp hy with rfl | hyt
      · exact le_of_lt hab
      · exact hb y hyt
    · rw [if_neg hab]
      push_neg at hab
      refine List.pairwise_cons.mpr ⟨?_, h⟩
      intro y hy
      rcases List.mem_cons.mp hy with rfl | hyt
      · exact hab
      · exact le_trans (hb y hyt) hab

theorem pairwise_sortByDesc {α : Type} (f : α → Int) (l : List α) :
    (sortByDesc f l).Pairwise (fun x y => f y ≤ f x) := by
  induction l with
  | nil => simp [sortByDesc]
  | cons a t ih => exact pairwise_insertDesc f a _ ih

theorem filter_insertDesc {α : Type} (f : α → Int) (c : Int) (a : α) (l : List α) :
    (insertDesc f a l).filter (fun e => f e == c)
      = if (f a == c) = true then a :: l.filter (fun e => f e == c)
        else l.filter (fun e => f e == c) := by
  induction l with
  | nil =>
    by_cases hac : (f a == c) = true
    · simp [insertDesc, List.filter, hac]
    · simp [insertDesc, List.filter, hac]
  | cons b t ih =>
    simp only [insertDesc]
    by_cases hab : f a < f b
    · rw [if_pos hab]
      by_cases hac : (f a == c) = true
      · have hbc : (f b == c) = false := by
          have h1 : f a = c := beq_iff_eq.mp hac
          have h2 : ¬ f b = c := by omega
          exact beq_eq_false_iff_ne.mpr h2
        rw [if_pos hac]
        simp [List.filter_cons, hbc, ih, hac]
      · rw [if_neg hac]
        simp [List.filter_cons, ih, hac]
    · rw [if_neg hab]
      simp [List.filter_cons]

theorem filter_sortByDesc {α : Type} (f : α → Int) (c : Int) (l : List α) :
    (sortByDesc f l).filter (fun e => f e == c) = l.filter (fun e => f e == c) := by
  induction l with
  | nil => rfl
  | cons a t ih =>
    simp only [sortByDesc]
    rw [filter_insertDesc]
    by_cases hac : (f a == c) = true
    · rw [if_pos hac, ih, List.filter_cons, if_pos hac]
    · rw [if_neg hac, ih, List.filter_cons, if_neg hac]

theorem head_sortByDesc {α : Type} (f : α → Int) (l : List α) (h : l ≠ []) :
    ∃ b, (sortByDesc f l).head? = some b ∧ b ∈ l ∧ (∀ x ∈ l, f x ≤ f b)
      ∧ l.find? (fun x => f x == f b) = some b := by
  induction l with
  | nil => exact absurd rfl h
  | cons a t ih =>
    cases t with
    | nil =>
      refine ⟨a, by simp [sortByDesc, insertDesc], by simp, by simp, ?_⟩
      simp [List.find?]
    | cons c t2 =>
      rcases ih (by simp) with ⟨b, hb1, hb2, hb3, hb4⟩
      cases hs : sortByDesc f (c :: t2) with
      | nil => rw [hs] at hb1; cases hb1
      | cons b0 rest =>
        rw [hs] at hb1
        have hb0 : b0 = b := by
          simpa using hb1
        subst hb0
        have hstep : sortByDesc f (a :: c :: t2) = insertDesc f a (b0 :: rest) := by
          rw [← hs]
          rfl
        by_cases hab : f a < f b0
        · refine ⟨b0, ?_, List.mem_cons_of_mem a hb2, ?_, ?_⟩
          · rw [hstep]
            simp only [insertDesc, if_pos hab, List.head?]
          · intro x hx
            rcases List.mem_cons.mp hx with rfl | hx2
            · exact le_of_lt hab
            · exact hb3 x hx2
          · have hane : (f a == f b0) = false :=
              beq_eq_false_iff_ne.mpr (by omega)
            rw [List.find?_cons_of_neg _ (by simp [hane]), hb4]
        · refine ⟨a, ?_, List.mem_cons_self a _, ?_, ?_⟩
          · rw [hstep]
            simp only [insertDesc, if_neg hab, List.head?]
          · intro x hx
            rcases List.mem_cons.mp hx with rfl | hx2
            · exact le_refl _
            · exact le_trans (hb3 x hx2) (by omega)
          · exact List.find?_cons_of_pos _ (by simp)

theorem pairwise_sortByAsc {α : Type} (f : α → Int) (l : List α) :
    (sortByAsc f l).Pairwise (fun x y => f x ≤ f y) := by
  have h := pairwise_sortByDesc (fun a => -(f a)) l
  exact List.Pairwise.imp (fun h2 => by omega) h

theorem perm_sortByAsc {α : Type} (f : α → Int) (l : List α) : (sortByAsc f l).Perm l :=
  perm_sortByDesc _ l

theorem mem_of_head?_eq {α : Type} {l : List α} {b : α} (h : l.head? = some b) : b ∈ l := by
  cases l with
  | nil => cases h
  | cons a t =>
    simp only [List.head?] at h
    rw [← Option.some_inj.mp h]
    exact List.mem_cons_self a t

theorem mem_of_getLast?_eq {α : Type} : ∀ {l : List α} {b : α}, l.getLast? = some b → b ∈ l
  | [], b, h => by cases h
  | [a], b, h => by
    simp only [List.getLast?_singleton] at h
    rw [← Option.some_inj.mp h]
    exact List.mem_cons_self a []
  | a :: c :: t, b, h => by
    rw [List.getLast?_cons_cons] at h
    exact List.mem_cons_of_mem a (mem_of_getLast?_eq h)

theorem head_min_of_pairwise {α : Type} (f : α → Int) (l : List α) (b : α)
    (hp : l.Pairwise (fun x y => f x ≤ f y)) (hh : l.head? = some b) :
    ∀ x ∈ l, f b ≤ f x := by
  cases l with
  | nil => cases hh
  | cons a t =>
    simp only [List.head?] at hh
    rw [← Option.some_inj.mp hh]
    rcases List.pairwise_cons.mp hp with ⟨ha, _⟩
    intro x hx
    rcases List.mem_cons.mp hx with rfl | hx2
    · exact le_refl _
    · exact ha x hx2

theorem getLast_max_of_pairwise {α : Type} (f : α → Int) :
    ∀ (l : List α) (b : α), l.Pairwise (fun x y => f x ≤ f y) → l.getLast? = some b →
      ∀ x ∈ l, f x ≤ f b
  | [], b, _, hh => by cases hh
  | [a], b, _, hh => by
    simp only [List.getLast?_singleton] at hh
    rw [← Option.some_inj.mp hh]
    intro x hx
    rcases List.mem_cons.mp hx with rfl | hx2
    · exact le_refl _
    · cases hx2
  | a :: c :: t, b, hp, hh => by
    rw [List.getLast?_cons_cons] at hh
    rcases List.pairwise_cons.mp hp with ⟨ha, hp2⟩
    have ih := getLast_max_of_pairwise f (c :: t) b hp2 hh
    intro x hx
    rcases List.mem_cons.mp hx with rfl | hx2
    · exact le_trans (ha b (mem_of_getLast?_eq hh)) (le_refl _)
    · exact ih x hx2

theorem cta_step_sum (m : List (String × CleanTopAlbums.ConsolidatedAlbum))
    (a : CleanTopAlbums.CleanedAlbum) :
    ((CleanTopAlbums.step m a).map (fun p => p.2.count)).sum
      = (m.map (fun p => p.2.count)).sum + a.count := by
  unfold CleanTopAlbums.step
  by_cases h : hasKey m (CleanTopAlbums.albumKey a) = true
  · rw [if_pos h]
    exact sum_map_updateAssoc (fun e => e.count) m (CleanTopAlbums.albumKey a)
      (fun existing => CleanTopAlbums.mergeInto existing a) a.count (fun e => rfl) h
  · rw [if_neg h]
    simp [CleanTopAlbums.seedAlbum]

theorem cta_foldl_sum : ∀ (albums : List CleanTopAlbums.CleanedAlbum)
    (m : List (String × CleanTopAlbums.ConsolidatedAlbum)),
    ((albums.foldl CleanTopAlbums.step m).map (fun p => p.2.count)).sum
      = (m.map (fun p => p.2.count)).sum + (albums.map (fun a => a.count)).sum
  | [], m => by simp
  | a :: t, m => by
    simp only [List.foldl_cons, List.map_cons, List.sum_cons]
    rw [cta_foldl_sum t (CleanTopAlbums.step m a), cta_step_sum]
    ring

theorem cta_step_keys (m : List (String × CleanTopAlbums.ConsolidatedAlbum))
    (a : CleanTopAlbums.CleanedAlbum) :
    (CleanTopAlbums.step m a).map Prod.fst
      = if hasKey m (CleanTopAlbums.albumKey a) = true then m.map Prod.fst
        else m.map Prod.fst ++ [CleanTopAlbums.albumKey a] := by
  unfold CleanTopAlbums.step
  by_cases h : hasKey m (CleanTopAlbums.albumKey a) = true
  · rw [if_pos h, if_pos h, keys_updateAssoc]
  · rw [if_neg h, if_neg h]
    simp

theorem cta_foldl_nodup : ∀ (albums : List CleanTopAlbums.CleanedAlbum)
    (m : List (String × CleanTopAlbums.ConsolidatedAlbum)),
    (m.map Prod.fst).Nodup → ((albums.foldl CleanTopAlbums.step m).map Prod.fst).Nodup
  | [], _, h => h
  | a :: t, m, h => by
    apply cta_foldl_nodup t
    rw [cta_step_keys]
    by_cases hk : hasKey m (CleanTopAlbums.albumKey a) = true
    · rw [if_pos hk]
      exact h
    · rw [if_neg hk]
      have hnot : CleanTopAlbums.albumKey a ∉ m.map Prod.fst := fun hmem =>
        hk ((hasKey_iff m _).mpr hmem)
      simp [List.nodup_append, h, hnot]

theorem cta_step_hasKey_self (m : List (String × CleanTopAlbums.ConsolidatedAlbum))
    (a : CleanTopAlbums.CleanedAlbum) :
    hasKey (CleanTopAlbums.step m a) (CleanTopAlbums.albumKey a) = true := by
  unfold CleanTopAlbums.step
  by_cases h : hasKey m (CleanTopAlbums.albumKey a) = true
  · rw [if_pos h, hasKey_updateAssoc]
    exact h
  · rw [if_neg h, hasKey_append]
    simp [hasKey]

theorem cta_step_hasKey_mono (m : List (String × CleanTopAlbums.ConsolidatedAlbum))
    (a : CleanTopAlbums.CleanedAlbum) (k : String) (h : hasKey m k = true) :
    hasKey (CleanTopAlbums.step m a) k = true := by
  unfold CleanTopAlbums.step
  by_cases h2 : hasKey m (CleanTopAlbums.albumKey a) = true
  · rw [if_pos h2, hasKey_updateAssoc]
    exact h
  · rw [if_neg h2, hasKey_append, h]
    rfl

theorem cta_foldl_hasKey_mono : ∀ (albums : List CleanTopAlbums.CleanedAlbum)
    (m : List (String × CleanTopAlbums.ConsolidatedAlbum)) (k : String),
    hasKey m k = true → hasKey (albums.foldl CleanTopAlbums.step m) k = true
  | [], _, _, h => h
  | a :: t, m, k, h =>
    cta_foldl_hasKey_mono t (CleanTopAlbums.step m a) k (cta_step_hasKey_mono m a k h)

theorem cta_foldl_hasKey_all : ∀ (albums : List CleanTopAlbums.CleanedAlbum)
    (m : List (String × CleanTopAlbums.ConsolidatedAlbum))
    (a : CleanTopAlbums.CleanedAlbum), a ∈ albums →
    hasKey (albums.foldl CleanTopAlbums.step m) (CleanTopAlbums.albumKey a) = true
  | b :: t, m, a, ha => by
    rcases List.mem_cons.mp ha with rfl | h2
    · exact cta_foldl_hasKey_mono t _ _ (cta_step_hasKey_self m a)
    · exact cta_foldl_hasKey_all t _ a h2

theorem gen_step_sum (m : List (String × GenCleaned.CleanedSong))
    (s : GenCleaned.CleanedSong) :
    ((GenCleaned.stepSong m s).map (fun p => p.2.count)).sum
      = (m.map (fun p => p.2.count)).sum + s.count := by
  unfold GenCleaned.stepSong
  by_cases h : hasKey m (GenCleaned.songKey s) = true
  · rw [if_pos h]
    exact sum_map_updateAssoc (fun e => e.count) m (GenCleaned.songKey s)
      (fun existing => GenCleaned.mergeSong existing s) s.count (fun e => rfl) h
  · rw [if_neg h]
    simp

theorem gen_foldl_sum : ∀ (songs : List GenCleaned.CleanedSong)
    (m : List (String × GenCleaned.CleanedSong)),
    ((songs.foldl GenCleaned.stepSong m).map (fun p => p.2.count)).sum
      = (m.map (fun p => p.2.count)).sum + (songs.map (fun s => s.count)).sum
  | [], m => by simp
  | s :: t, m => by
    simp only [List.foldl_cons, List.map_cons, List.sum_cons]
    rw [gen_foldl_sum t (GenCleaned.stepSong m s), gen_step_sum]
    ring

theorem mem_dedupGo {α : Type} [DecidableEq α] :
    ∀ (l seen : List α) (g : α), g ∈ dedupGo seen l ↔ g ∈ l ∧ g ∉ seen
  | [], seen, g => by simp [dedupGo]
  | a :: t, seen, g => by
    simp only [dedupGo]
    by_cases h : a ∈ seen
    · rw [if_pos h, mem_dedupGo t seen g]
      simp only [List.mem_cons]
      constructor
      · rintro ⟨h1, h2⟩
        exact ⟨Or.inr h1, h2⟩
      · rintro ⟨h1 | h1, h2⟩
        · rw [h1] at h2
          exact absurd h h2
        · exact ⟨h1, h2⟩
    · rw [if_neg h]
      simp only [List.mem_cons, mem_dedupGo t (seen ++ [a]) g, List.mem_append,
        List.mem_singleton]
      by_cases hga : g = a
      · subst hga
        tauto
      · tauto

theorem nodup_dedupGo {α : Type} [DecidableEq α] :
    ∀ (l seen : List α), seen.Nodup → (seen ++ dedupGo seen l).Nodup
  | [], seen, h => by simpa [dedupGo]
  | a :: t, seen, h => by
    simp only [dedupGo]
    by_cases ha : a ∈ seen
    · rw [if_pos ha]
      exact nodup_dedupGo t seen h
    · rw [if_neg ha]
      have h2 := nodup_dedupGo t (seen ++ [a]) (by simp [List.nodup_append, h, ha])
      rw [List.append_assoc] at h2
      simpa using h2

theorem dedupGo_append {α : Type} [DecidableEq α] :
    ∀ (l1 l2 seen : List α),
      dedupGo seen (l1 ++ l2) = dedupGo seen l1 ++ dedupGo (seen ++ dedupGo seen l1) l2
  | [], l2, seen => by simp [dedupGo]
  | a :: t, l2, seen => by
    simp only [List.cons_append, dedupGo, List.append_eq]
    by_cases ha : a ∈ seen
    · rw [if_pos ha, if_pos ha, dedupGo_append t l2 seen]
    · rw [if_neg ha, if_neg ha, dedupGo_append t l2 (seen ++ [a])]
      simp [List.append_assoc]

theorem dedupGo_eq_self {α : Type} [DecidableEq α] :
    ∀ (l seen : List α), l.Nodup → (∀ x ∈ l, x ∉ seen) → dedupGo seen l = l
  | [], seen, _, _ => rfl
  | a :: t, seen, hnd, hdis => by
    simp only [dedupGo]
    rw [if_neg (hdis a (List.mem_cons_self a t))]
    rcases List.nodup_cons.mp hnd with ⟨hat, hnd2⟩
    rw [dedupGo_eq_self t (seen ++ [a]) hnd2]
    intro x hx
    simp only [List.mem_append, List.mem_singleton]
    rintro (hc | rfl)
    · exact hdis x (List.mem_cons_of_mem a hx) hc
    · exact hat hx

theorem hasKey_map_proj {β γ : Type} (g : β → γ) (m : List (String × β)) (k : String) :
    hasKey (m.map (fun p => (p.1, g p.2))) k = hasKey m k := by
  induction m with
  | nil => rfl
  | cons p rest ih =>
    simp only [List.map_cons, hasKey, List.any_cons] at ih ⊢
    rw [ih]

theorem map_updateAssoc_of_preserve {β γ : Type} (g : β → γ) (m : List (String × β))
    (k : String) (f : β → β) (hf : ∀ e, g (f e) = g e) :
    (updateAssoc m k f).map (fun p => (p.1, g p.2)) = m.map (fun p => (p.1, g p.2)) := by
  induction m with
  | nil => rfl
  | cons p rest ih =>
    simp only [updateAssoc]
    split
    · simp [hf]
    · simp only [List.map_cons, ih]

theorem mergeInto_album_name (e : CleanTopAlbums.ConsolidatedAlbum)
    (a : CleanTopAlbums.CleanedAlbum) :
    (CleanTopAlbums.mergeInto e a).album.name = e.album.name := by
  unfold CleanTopAlbums.mergeInto
  split <;> rfl

theorem cta_step_names (m : List (String × CleanTopAlbums.ConsolidatedAlbum))
    (a : CleanTopAlbums.CleanedAlbum) :
    (CleanTopAlbums.step m a).map (fun p => (p.1, p.2.album.name))
      = firstOccStep (m.map (fun p => (p.1, p.2.album.name)))
          (CleanTopAlbums.albumKey a, a.album.name) := by
  unfold CleanTopAlbums.step firstOccStep
  have hk : hasKey (m.map (fun p => (p.1, p.2.album.name)))
      (CleanTopAlbums.albumKey a, a.album.name).1 = hasKey m (CleanTopAlbums.albumKey a) :=
    hasKey_map_proj (fun e => e.album.name) m (CleanTopAlbums.albumKey a)
  by_cases h : hasKey m (CleanTopAlbums.albumKey a) = true
  · rw [if_pos h, if_pos (hk.trans h)]
    exact map_updateAssoc_of_preserve (fun e => e.album.name) m _ _
      (fun e => mergeInto_album_name e a)
  · rw [if_neg h, if_neg (fun hc => h (hk.symm.trans hc))]
    simp [CleanTopAlbums.seedAlbum]

theorem cta_foldl_names : ∀ (albums : List CleanTopAlbums.CleanedAlbum)
    (m : List (String × CleanTopAlbums.ConsolidatedAlbum)),
    (albums.foldl CleanTopAlbums.step m).map (fun p => (p.1, p.2.album.name))
      = (albums.map (fun a => (CleanTopAlbums.albumKey a, a.album.name))).foldl firstOccStep
          (m.map (fun p => (p.1, p.2.album.name)))
  | [], m => rfl
  | a :: t, m => by
    simp only [List.foldl_cons, List.map_cons]
    rw [cta_foldl_names t, cta_step_names]

theorem part001_entry_invariant : ∀ (albums : List CleanTopAlbums.CleanedAlbum)
    (m : List (String × Part001.ConsolidatedAlbum)),
    (∀ p ∈ m, p.2.count = p.2.original_counts.sum
      ∧ p.2.consolidated_count = (p.2.original_albumIds.length : Int)
      ∧ p.2.original_albumIds.length = p.2.original_counts.length) →
    ∀ p ∈ albums.foldl Part001.step m, p.2.count = p.2.original_counts.sum
      ∧ p.2.consolidated_count = (p.2.original_albumIds.length : Int)
      ∧ p.2.original_albumIds.length = p.2.original_counts.length
  | [], _, hm => hm
  | a :: t, m, hm => by
    apply part001_entry_invariant t
    intro p hp
    unfold Part001.step at hp
    by_cases h : hasKey m (Part001.albumKey a) = true
    · rw [if_pos h] at hp
      refine forall_updateAssoc
        (fun e => e.count = e.original_counts.sum
          ∧ e.consolidated_count = (e.original_albumIds.length : Int)
          ∧ e.original_albumIds.length = e.original_counts.length) m _ _ ?_ hm p hp
      rintro e ⟨h1, h2, h3⟩
      refine ⟨?_, ?_, ?_⟩
      · show e.count + a.count = (e.original_counts ++ [a.count]).sum
        simp [h1]
      · show e.consolidated_count + 1 = ((e.original_albumIds ++ [a.albumId]).length : Int)
        simp [h2]
      · show (e.original_albumIds ++ [a.albumId]).length
          = (e.original_counts ++ [a.count]).length
        simp [h3]
    · rw [if_neg h] at hp
      rcases List.mem_append.mp hp with h2 | h2
      · exact hm p h2
      · have hps : p = (Part001.albumKey a, Part001.seedAlbum a) := by simpa using h2
        rw [hps]
        simp [Part001.seedAlbum]

theorem assignRanks_map_rank : ∀ (l : List CleanTopAlbums.ConsolidatedAlbum) (i : Nat),
    (CleanTopAlbums.assignRanks l i).map (fun e => e.rank) = (List.range' i l.length).map some
  | [], _ => rfl
  | a :: t, i => by
    simp only [CleanTopAlbums.assignRanks, List.map_cons, List.length_cons, List.range'_succ]
    rw [assignRanks_map_rank t (i + 1)]

theorem assignRanks_map_count : ∀ (l : List CleanTopAlbums.ConsolidatedAlbum) (i : Nat),
    (CleanTopAlbums.assignRanks l i).map (fun e => e.count) = l.map (fun e => e.count)
  | [], _ => rfl
  | a :: t, i => by
    simp only [CleanTopAlbums.assignRanks, List.map_cons]
    rw [assignRanks_map_count t (i + 1)]

theorem updateLast_eq : ∀ (l1 : List DataMerger.CompleteSong) (s : DataMerger.CompleteSong)
    (l2 : List DataMerger.CompleteSong) (k : String)
    (f : DataMerger.CompleteSong → DataMerger.CompleteSong),
    DataMerger.songKey s = k → (∀ t ∈ l1 ++ l2, DataMerger.songKey t ≠ k) →
    DataMerger.updateLast (l1 ++ s :: l2) k f = l1 ++ f s :: l2
  | [], s, l2, k, f, hs, hok => by
    simp only [List.nil_append, DataMerger.updateLast]
    have h1 : ¬ (l2.any fun t => DataMerger.songKey t == k) = true := by
      intro hb
      rcases List.any_eq_true.mp hb with ⟨t, ht, htk⟩
      exact hok t (by simpa using ht) (beq_iff_eq.mp htk)
    rw [if_neg h1, if_pos (beq_iff_eq.mpr hs)]
  | x :: l1, s, l2, k, f, hs, hok => by
    simp only [List.cons_append, DataMerger.updateLast, List.append_eq]
    have h1 : ((l1 ++ s :: l2).any fun t => DataMerger.songKey t == k) = true :=
      List.any_eq_true.mpr ⟨s, by simp, beq_iff_eq.mpr hs⟩
    rw [if_pos h1,
      updateLast_eq l1 s l2 k f hs (fun t ht => hok t (List.mem_cons_of_mem x ht))]

/-- C1: the consolidation fold assigns each input record to exactly one
consolidated entity — the map's keys (case-folded attribution plus name) are
pairwise distinct and every record's key is present — and before the top-N
truncation the consolidated counts sum to the input counts, both for
consolidateAlbums (clean-top-albums.ts) and for consolidateSongs
(generate-cleaned-files-from-history.ts). -/
theorem c1_fold_partitions_records_and_preserves_count_sum
    (albums : List CleanTopAlbums.CleanedAlbum) (songs : List GenCleaned.CleanedSong) :
    ((CleanTopAlbums.consolidate albums).map (fun p => p.2.count)).sum
        = (albums.map (fun a => a.count)).sum
    ∧ ((CleanTopAlbums.consolidate albums).map Prod.fst).Nodup
    ∧ (∀ a ∈ albums,
        hasKey (CleanTopAlbums.consolidate albums) (CleanTopAlbums.albumKey a) = true)
    ∧ ((GenCleaned.consolidateSongsMap songs).map (fun p => p.2.count)).sum
        = (songs.map (fun s => s.count)).sum := by
  refine ⟨?_, ?_, ?_, ?_⟩
  · have h := cta_foldl_sum albums []
    simpa [CleanTopAlbums.consolidate] using h
  · exact cta_foldl_nodup albums [] (by simp)
  · intro a ha
    exact cta_foldl_hasKey_all albums [] a ha
  · have h := gen_foldl_sum songs []
    simpa [GenCleaned.consolidateSongsMap] using h

theorem c1_witness :
    ((CleanTopAlbums.consolidate [exAlbumRoadFirst, exAlbumRoadMost]).map
        (fun p => p.2.count)).sum
      = ([exAlbumRoadFirst, exAlbumRoadMost].map (fun a => a.count)).sum
    ∧ hasKey (CleanTopAlbums.consolidate [exAlbumRoadFirst, exAlbumRoadMost])
        (CleanTopAlbums.albumKey exAlbumRoadMost) = true := by
  have h := c1_fold_partitions_records_and_preserves_count_sum
    [exAlbumRoadFirst, exAlbumRoadMost] [exSongA, exSongB]
  exact ⟨h.1, h.2.2.1 exAlbumRoadMost (by simp)⟩

/-- C2 counterexample: the two records share one grouping key and merge into
a single consolidated entity, the second member is strictly more played, yet
the merged entity's display name is the first-seen member's name, not the
most played member's. -/
theorem c2_counterexample :
    (CleanTopAlbums.consolidate [exAlbumRoadFirst, exAlbumRoadMost]).length = 1
    ∧ (CleanTopAlbums.consolidate [exAlbumRoadFirst, exAlbumRoadMost]).map
        (fun p => p.2.album.name) = ["Abbey Road"]
    ∧ exAlbumRoadFirst.count < exAlbumRoadMost.count
    ∧ exAlbumRoadMost.album.name ≠ "Abbey Road" := by
  refine ⟨by decide, by decide, by decide, by decide⟩

/-- C2 (amended): in the consolidation fold the FIRST-seen member's display
name wins — the key/name projection of the consolidated map equals the first
occurrence of each input key — while the most-played-variant rule holds where
findAutoConsolidations creates rules: the auto rule's base name is the display
name of the first group member attaining the maximal play count (stable-sort
tie break = first-seen order). -/
theorem c2_first_seen_name_in_fold_most_played_name_in_auto_rules :
    (∀ albums : List CleanTopAlbums.CleanedAlbum,
      (CleanTopAlbums.consolidate albums).map (fun p => (p.1, p.2.album.name))
        = firstOcc (albums.map (fun a => (CleanTopAlbums.albumKey a, a.album.name))))
    ∧ (∀ (artistName : String) (group : List CleanTopAlbums.CleanedAlbum), group ≠ [] →
      ∃ top, top ∈ group ∧ (∀ x ∈ group, x.count ≤ top.count)
        ∧ group.find? (fun x => x.count == top.count) = some top
        ∧ AiConsolidate.autoRuleFor artistName group
            = some ⟨artistName, top.album.name,
                group.map (fun album => strLower album.album.name)⟩) := by
  constructor
  · intro albums
    have h := cta_foldl_names albums []
    simpa [CleanTopAlbums.consolidate, firstOcc] using h
  · intro artistName group hne
    rcases head_sortByDesc (fun a => a.count) group hne with ⟨b, hb1, hb2, hb3, hb4⟩
    refine ⟨b, hb2, hb3, hb4, ?_⟩
    unfold AiConsolidate.autoRuleFor
    rw [hb1]
    rfl

theorem c2_witness :
    ∃ top, top ∈ [exAlbumRoadFirst, exAlbumRoadMost]
      ∧ (∀ x ∈ [exAlbumRoadFirst, exAlbumRoadMost], x.count ≤ top.count)
      ∧ [exAlbumRoadFirst, exAlbumRoadMost].find? (fun x => x.count == top.count) = some top
      ∧ AiConsolidate.autoRuleFor ("x") [exAlbumRoadFirst, exAlbumRoadMost]
          = some ⟨"x", top.album.name,
              [exAlbumRoadFirst, exAlbumRoadMost].map
                (fun album => strLower album.album.name)⟩ :=
  c2_first_seen_name_in_fold_most_played_name_in_auto_rules.2
    ("x") [exAlbumRoadFirst, exAlbumRoadMost] (by simp)

/-- C3: after the stable descending sort and the top-500 truncation the
assigned ranks are exactly 1..min(500, number of consolidated entities) in
order; the counts are non-increasing along the ranked output (so rank
strictly increases as the count strictly decreases); and entities with equal
counts keep their insertion order across the sort. -/
theorem c3_rank_assignment_and_stable_descending_order
    (albums : List CleanTopAlbums.CleanedAlbum) :
    (CleanTopAlbums.consolidateAlbums albums).map (fun e => e.rank)
        = (List.range' 1
            (min 500 ((CleanTopAlbums.consolidate albums).map (fun p => p.2)).length)).map some
    ∧ ((CleanTopAlbums.consolidateAlbums albums).map (fun e => e.count)).Pairwise
        (fun x y => y ≤ x)
    ∧ ∀ c : Int,
        (sortByDesc (fun e => e.count)
            ((CleanTopAlbums.consolidate albums).map (fun p => p.2))).filter
            (fun e => e.count == c)
          = ((CleanTopAlbums.consolidate albums).map (fun p => p.2)).filter
              (fun e => e.count == c) := by
  refine ⟨?_, ?_, ?_⟩
  · unfold CleanTopAlbums.consolidateAlbums
    rw [assignRanks_map_rank]
    have hlen : ((sortByDesc (fun e => e.count)
        ((CleanTopAlbums.consolidate albums).map (fun p => p.2))).take 500).length
        = min 500 ((CleanTopAlbums.consolidate albums).map (fun p => p.2)).length := by
      rw [List.length_take,
        (perm_sortByDesc (fun e : CleanTopAlbums.ConsolidatedAlbum => e.count)
          ((CleanTopAlbums.consolidate albums).map (fun p => p.2))).length_eq]
    rw [hlen]
  · unfold CleanTopAlbums.consolidateAlbums
    rw [assignRanks_map_count, List.map_take]
    have hp : ((sortByDesc (fun e : CleanTopAlbums.ConsolidatedAlbum => e.count)
        ((CleanTopAlbums.consolidate albums).map (fun p => p.2))).map
          (fun e => e.count)).Pairwise (fun x y => y ≤ x) :=
      List.pairwise_map.mpr
        (pairwise_sortByDesc (fun e : CleanTopAlbums.ConsolidatedAlbum => e.count)
          ((CleanTopAlbums.consolidate albums).map (fun p => p.2)))
    exact hp.sublist (List.take_sublist 500 _)
  · intro c
    exact filter_sortByDesc (fun e : CleanTopAlbums.ConsolidatedAlbum => e.count) c
      ((CleanTopAlbums.consolidate albums).map (fun p => p.2))

theorem c3_witness :
    (CleanTopAlbums.consolidateAlbums [exAlbumRoadFirst, exAlbumRoadMost]).map
      (fun e => e.rank) = [some 1] := by
  have h := (c3_rank_assignment_and_stable_descending_order
    [exAlbumRoadFirst, exAlbumRoadMost]).1
  rw [h]
  decide

/-- C4 counterexample: in consolidateSongs the consolidated_count field
accumulates play counts (`+= song.count`), so two folded members with counts
3 and 4 give consolidated_count 7 while the member-id list has length 2 —
memberCount does not equal len(memberIds) there. -/
theorem c4_counterexample :
    (GenCleaned.consolidateSongs [exSongA, exSongB]).map
        (fun s => s.consolidated_count) = [7]
    ∧ (GenCleaned.consolidateSongs [exSongA, exSongB]).map
        (fun s => s.original_songIds.length) = [2]
    ∧ ((7 : Int) = ((2 : Nat) : Int) → False) := by
  refine ⟨by decide, by decide, by decide⟩

/-- C4 (amended): the audit invariant holds for part_001's consolidateAlbums,
which tracks per-member counts: every consolidated entry has count equal to
the sum of its original_counts, and consolidated_count equal to the length of
original_albumIds, which equals the length of original_counts.  It fails for
consolidateSongs, whose consolidated_count accumulates play counts instead
(see the counterexample). -/
theorem c4_part001_member_audit_invariant (albums : List CleanTopAlbums.CleanedAlbum) :
    ∀ p ∈ Part001.consolidate albums,
      p.2.count = p.2.original_counts.sum
      ∧ p.2.consolidated_count = (p.2.original_albumIds.length : Int)
      ∧ p.2.original_albumIds.length = p.2.original_counts.length :=
  part001_entry_invariant albums [] (by simp)

theorem c4_witness :
    (Part001.consolidate [exAlbumRoadFirst, exAlbumRoadMost]).map (fun p => p.2.count)
      = (Part001.consolidate [exAlbumRoadFirst, exAlbumRoadMost]).map
          (fun p => p.2.original_counts.sum) := by
  apply List.map_congr_left
  intro p hp
  exact (c4_part001_member_audit_invariant [exAlbumRoadFirst, exAlbumRoadMost] p hp).1

/-- C5 counterexample: a record with negative playCount is not rejected —
consolidateAlbums returns normally (the source has no validation path at all)
and the consolidated entity carries the negative magnitude, so a cluster does
observe a negative magnitude instead of a ValidationError being raised. -/
theorem c5_counterexample :
    (CleanTopAlbums.consolidateAlbums [exNegAlbum]).map (fun e => e.count) = [-5]
    ∧ exNegAlbum.count < 0 := by
  refine ⟨by decide, by decide⟩

/-- C5 (amended): no validation is performed: a record with negative count is
folded into the consolidated map like any other record (its key is present
and lookup succeeds), and by the C1 sums over Int its negative magnitude
enters the consolidated totals. -/
theorem c5_no_validation_negative_records_are_folded_in
    (albums : List CleanTopAlbums.CleanedAlbum) (a : CleanTopAlbums.CleanedAlbum)
    (ha : a ∈ albums) (_hneg : a.count < 0) :
    ∃ e, lookupAssoc (CleanTopAlbums.consolidate albums)
      (CleanTopAlbums.albumKey a) = some e :=
  lookup_of_hasKey _ _ (cta_foldl_hasKey_all albums [] a ha)

theorem c5_witness :
    exNegAlbum.count < 0
    ∧ ∃ e, lookupAssoc (CleanTopAlbums.consolidate [exNegAlbum])
        (CleanTopAlbums.albumKey exNegAlbum) = some e :=
  ⟨by decide, c5_no_validation_negative_records_are_folded_in [exNegAlbum] exNegAlbum
    (by simp) (by decide)⟩

/-- C6: whenever the oracle call fails or its response carries no well-typed
Decision payload, analyzeAlbumGroup returns the fallback Decision — no
consolidation, confidence 0, canonical name the first member's display name —
and for a nonempty cluster it always returns exactly one Decision, never
propagating an exception. -/
theorem c6_oracle_failure_yields_fallback_decision
    (albums : List CleanTopAlbums.CleanedAlbum) (first : CleanTopAlbums.CleanedAlbum)
    (response : Except String AiConsolidate.Json)
    (hfirst : albums.head? = some first)
    (hfail : ∀ j, response = Except.ok j → AiConsolidate.decodeDecision j = none) :
    (∃ d, AiConsolidate.analyzeAlbumGroup albums response = some d
      ∧ d.shouldConsolidate = false ∧ d.confidence = 0
      ∧ d.canonicalName = first.album.name)
    ∧ ∀ r2 : Except String AiConsolidate.Json,
        (AiConsolidate.analyzeAlbumGroup albums r2).isSome = true := by
  constructor
  · cases albums with
    | nil => cases hfirst
    | cons g t =>
      have hg : g = first := by simpa using hfirst
      subst hg
      cases response with
      | error msg => exact ⟨_, rfl, rfl, rfl, rfl⟩
      | ok j =>
        have hd := hfail j rfl
        simp only [AiConsolidate.analyzeAlbumGroup, List.head?, hd]
        exact ⟨_, rfl, rfl, rfl, rfl⟩
  · intro r2
    cases albums with
    | nil => cases hfirst
    | cons g t => rfl

theorem c6_witness :
    ∃ d, AiConsolidate.analyzeAlbumGroup [exAlbumRoadFirst]
        (Except.ok (AiConsolidate.Json.str ("not a decision"))) = some d
      ∧ d.shouldConsolidate = false ∧ d.confidence = 0
      ∧ d.canonicalName = exAlbumRoadFirst.album.name :=
  (c6_oracle_failure_yields_fallback_decision [exAlbumRoadFirst] exAlbumRoadFirst
    (Except.ok (AiConsolidate.Json.str ("not a decision"))) rfl
    (fun j hj => by cases hj; rfl)).1

/-- C7: for a nonempty group, the consolidation (a new rule) is produced if
and only if the decision says consolidate and its confidence is at least the
caller-supplied threshold; the threshold parameter's default is 0.7. -/
theorem c7_rule_created_iff_consolidate_and_confident
    (group : List CleanTopAlbums.CleanedAlbum)
    (decision : AiConsolidate.ConsolidationDecision) (threshold : Rat)
    (hne : group ≠ []) :
    ((AiConsolidate.processGroup group decision threshold).isSome = true
      ↔ (decision.shouldConsolidate = true ∧ threshold ≤ decision.confidence))
    ∧ AiConsolidate.defaultConfidenceThreshold = 7 / 10 := by
  refine ⟨?_, rfl⟩
  cases group with
  | nil => exact absurd rfl hne
  | cons g t =>
    unfold AiConsolidate.processGroup
    by_cases h : decision.shouldConsolidate = true ∧ threshold ≤ decision.confidence
    · rw [if_pos h]
      simp [h]
    · rw [if_neg h]
      simp [h]

theorem c7_witness :
    (AiConsolidate.processGroup [exAlbumRoadFirst]
        ⟨true, 1, "Abbey Road", "ok"⟩ 0).isSome = true
    ∧ AiConsolidate.defaultConfidenceThreshold = 7 / 10 := by
  have h := c7_rule_created_iff_consolidate_and_confident [exAlbumRoadFirst]
    ⟨true, 1, "Abbey Road", "ok"⟩ 0 (by simp)
  exact ⟨h.1.mpr ⟨rfl, by decide⟩, h.2⟩

/-- C8 counterexample: in DataMerger.mergeData the grouping key of a play
with no artists normalizes the attribution component to the sentinel
"unknown", not to "unknown artist" as the claim states. -/
theorem c8_counterexample :
    DataMerger.playKey exPlayNoArtist = "song|unknown"
    ∧ ("unknown" : String) ≠ "unknown artist" := by
  refine ⟨by decide, by decide⟩

/-- C8 (amended): records with empty or missing attribution do group
deterministically under a fixed sentinel, but the sentinel differs between
key builders: the consolidateAlbums key of generate-cleaned-files lowercases
the "Unknown Artist" fallback into the component "unknown artist", while the
DataMerger.mergeData key uses the component "unknown". -/
theorem c8_missing_attribution_sentinels
    (album : GenCleaned.CleanedAlbum) (play : DataMerger.RecentPlayData)
    (ha : album.album.artists.head? = none ∨ album.album.artists.head? = some (""))
    (hp : play.artists.head? = none ∨ play.artists.head? = some ("")) :
    GenCleaned.albumKey album
        = strTrim (strLower album.album.name) ++ "|" ++ ("unknown artist")
    ∧ DataMerger.playKey play
        = strTrim (strLower play.name) ++ "|" ++ ("unknown") := by
  constructor
  · unfold GenCleaned.albumKey GenCleaned.albumFirstArtist
    have h1 : jsOr album.album.artists.head? ("Unknown Artist") = "Unknown Artist" := by
      rcases ha with h | h <;> rw [h] <;> decide
    rw [h1]
    congr 1
  · unfold DataMerger.playKey
    have h2 : jsOr ((play.artists.head?).map (fun a => strTrim (strLower a)))
        ("unknown") = "unknown" := by
      rcases hp with h | h <;> rw [h] <;> decide
    rw [h2]

theorem c8_witness :
    GenCleaned.albumKey exAlbumNoArtist
        = strTrim (strLower exAlbumNoArtist.album.name) ++ "|" ++ ("unknown artist")
    ∧ DataMerger.playKey exPlayNoArtist
        = strTrim (strLower exPlayNoArtist.name) ++ "|" ++ ("unknown") :=
  c8_missing_attribution_sentinels exAlbumNoArtist exPlayNoArtist (Or.inl rfl) (Or.inl rfl)

theorem dateRange_spec (songs : List DataMerger.CompleteSong) (e l : Int)
    (h : DataMerger.dateRange songs = some (e, l)) :
    e ∈ DataMerger.allDates songs ∧ l ∈ DataMerger.allDates songs
      ∧ ∀ d ∈ DataMerger.allDates songs, e ≤ d ∧ d ≤ l := by
  have h2 : (match (sortByAsc (fun d => d) (DataMerger.allDates songs)).head?,
      (sortByAsc (fun d => d) (DataMerger.allDates songs)).getLast? with
    | some earliest, some latest => some (earliest, latest)
    | _, _ => none) = some (e, l) := h
  clear h
  cases hh : (sortByAsc (fun d => d) (DataMerger.allDates songs)).head? with
  | none =>
    rw [hh] at h2
    cases hl : (sortByAsc (fun d => d) (DataMerger.allDates songs)).getLast? with
    | none => rw [hl] at h2; cases h2
    | some l0 => rw [hl] at h2; cases h2
  | some e0 =>
    cases hl : (sortByAsc (fun d => d) (DataMerger.allDates songs)).getLast? with
    | none => rw [hh, hl] at h2; cases h2
    | some l0 =>
      rw [hh, hl] at h2
      injection h2 with h3
      cases h3
      refine ⟨?_, ?_, ?_⟩
      · exact (perm_sortByAsc (fun d => d) (DataMerger.allDates songs)).subset
          (mem_of_head?_eq hh)
      · exact (perm_sortByAsc (fun d => d) (DataMerger.allDates songs)).subset
          (mem_of_getLast?_eq hl)
      · intro d hd
        have hds : d ∈ sortByAsc (fun d => d) (DataMerger.allDates songs) :=
          (perm_sortByAsc (fun d => d) (DataMerger.allDates songs)).symm.subset hd
        refine ⟨?_, ?_⟩
        · exact head_min_of_pairwise (fun d => d) _ _
            (pairwise_sortByAsc (fun d => d) (DataMerger.allDates songs)) hh d hds
        · exact getLast_max_of_pairwise (fun d => d) _ _
            (pairwise_sortByAsc (fun d => d) (DataMerger.allDates songs)) hl d hds

/-- C9: one incremental merge step updates the matched existing entity in
place — play count incremented by exactly 1, the play's duration added to the
cumulative listening time, the event appended to its event list — or, when no
existing entity matches the grouping key, appends a fresh entity seeded from
the play with play count 1; and the recomputed date range of the merged
aggregate is exactly the minimum and maximum over all entities' event
timestamps, scanned after the merge. -/
theorem c9_incremental_history_merge :
    (∀ (l1 l2 news : List DataMerger.CompleteSong) (s : DataMerger.CompleteSong)
        (play : DataMerger.RecentPlayData),
      DataMerger.songKey s = DataMerger.playKey play →
      (∀ t ∈ l1 ++ l2, DataMerger.songKey t ≠ DataMerger.playKey play) →
      DataMerger.stepMerge (l1 ++ s :: l2, news) play
          = (l1 ++ DataMerger.updateSong play s :: l2, news)
        ∧ (DataMerger.updateSong play s).playCount = s.playCount + 1
        ∧ (DataMerger.updateSong play s).totalListeningTime
            = s.totalListeningTime + play.duration_ms
        ∧ (DataMerger.updateSong play s).listeningEvents
            = s.listeningEvents ++ [⟨play.played_at, play.duration_ms⟩])
    ∧ (∀ (songs news : List DataMerger.CompleteSong) (play : DataMerger.RecentPlayData),
        (∀ t ∈ songs, DataMerger.songKey t ≠ DataMerger.playKey play) →
        DataMerger.stepMerge (songs, news) play
            = (songs, news ++ [DataMerger.newSongOf play])
          ∧ (DataMerger.newSongOf play).playCount = 1
          ∧ (DataMerger.newSongOf play).listeningEvents
              = [⟨play.played_at, play.duration_ms⟩])
    ∧ (∀ (existing : List DataMerger.CompleteSong) (plays : List DataMerger.RecentPlayData)
        (e l : Int),
        (DataMerger.mergeData existing plays).2 = some (e, l) →
        e ∈ DataMerger.allDates (DataMerger.mergeSongs existing plays)
        ∧ l ∈ DataMerger.allDates (DataMerger.mergeSongs existing plays)
        ∧ ∀ d ∈ DataMerger.allDates (DataMerger.mergeSongs existing plays),
            e ≤ d ∧ d ≤ l) := by
  refine ⟨?_, ?_, ?_⟩
  · intro l1 l2 news s play hkey hok
    refine ⟨?_, rfl, rfl, rfl⟩
    simp only [DataMerger.stepMerge]
    have hany : ((l1 ++ s :: l2).any
        fun t => DataMerger.songKey t == DataMerger.playKey play) = true :=
      List.any_eq_true.mpr ⟨s, by simp, beq_iff_eq.mpr hkey⟩
    rw [if_pos hany, updateLast_eq l1 s l2 _ _ hkey hok]
  · intro songs news play hok
    refine ⟨?_, rfl, rfl⟩
    simp only [DataMerger.stepMerge]
    have hnot : ¬ (songs.any
        fun t => DataMerger.songKey t == DataMerger.playKey play) = true := by
      intro hc
      rcases List.any_eq_true.mp hc with ⟨t, ht, htk⟩
      exact hok t ht (beq_iff_eq.mp htk)
    rw [if_neg hnot]
  · intro existing plays e l hrange
    exact dateRange_spec (DataMerger.mergeSongs existing plays) e l hrange

theorem c9_witness :
    DataMerger.stepMerge ([exHistSong], []) exPlayMatch
        = ([DataMerger.updateSong exPlayMatch exHistSong], [])
    ∧ DataMerger.stepMerge ([exHistSong], []) exPlayNoArtist
        = ([exHistSong], [DataMerger.newSongOf exPlayNoArtist])
    ∧ (100 : Int) ∈ DataMerger.allDates (DataMerger.mergeSongs [exHistSong] [exPlayMatch]) := by
  have h := c9_incremental_history_merge
  refine ⟨?_, ?_, ?_⟩
  · exact (h.1 [] [] [] exHistSong exPlayMatch (by decide) (by simp)).1
  · refine (h.2.1 [exHistSong] [] exPlayNoArtist ?_).1
    intro t ht
    rw [List.mem_singleton.mp ht]
    decide
  · exact (h.2.2 [exHistSong] [exPlayMatch] 100 200 (by decide)).1

/-- C10: the merged genre list is the duplicate-free first-occurrence union
of the two members' genre lists: it never contains a duplicate, it contains
exactly the genres of either member, and (when the accumulated list is
duplicate-free, as every fold-produced genre list is) it equals the
accumulated genres in their existing order followed by the incoming member's
genres not already present, deduplicated in first-occurrence order. -/
theorem c10_genre_merge_is_first_occurrence_union (existing incoming : List String) :
    (mergedGenres existing incoming).Nodup
    ∧ (∀ g, g ∈ mergedGenres existing incoming ↔ g ∈ existing ∨ g ∈ incoming)
    ∧ (∀ g ∈ dedupGo existing incoming, g ∉ existing)
    ∧ (existing.Nodup →
        mergedGenres existing incoming = existing ++ dedupGo existing incoming) := by
  refine ⟨?_, ?_, ?_, ?_⟩
  · have h := nodup_dedupGo (existing ++ incoming) [] List.nodup_nil
    simpa [mergedGenres, jsSetDedup] using h
  · intro g
    simp only [mergedGenres, jsSetDedup]
    rw [mem_dedupGo (existing ++ incoming) [] g]
    simp
  · intro g hg
    exact ((mem_dedupGo incoming existing g).mp hg).2
  · intro hnd
    simp only [mergedGenres, jsSetDedup]
    rw [dedupGo_append existing incoming [],
      dedupGo_eq_self existing [] hnd (by simp)]
    simp

theorem c10_witness :
    (mergedGenres (["rock", "pop"]) (["pop", "indie", "indie"])).Nodup
    ∧ mergedGenres (["rock", "pop"]) (["pop", "indie", "indie"])
        = ["rock", "pop"] ++ dedupGo (["rock", "pop"]) (["pop", "indie", "indie"]) := by
  have h := c10_genre_merge_is_first_occurrence_union
    (["rock", "pop"]) (["pop", "indie", "indie"])
  exact ⟨h.1, h.2.2.2 (by decide)⟩
